import Mathlib

/-!
Verification of the wave-server session/token lifecycle and admission-control
subsystem.  The definitions below are a shallow embedding of the Go source:
`internal/security/hash.go`, `internal/errors/errors.go`,
`internal/domain/contact.go` (Token), `internal/repository/token_repo.go`,
`internal/service/auth_service.go`, `internal/api/middleware/ratelimit.go`,
`internal/api/middleware/auth.go` and `internal/api/handlers/auth.go`.

Time is modelled as `Int` (Go `time.Time` compared via `After`/`Sub`, which are
total-order comparisons on an integer timeline); machine randomness (random
secrets, UUIDs) is injected as explicit parameters; database infrastructure
failures are injected as explicit boolean fault flags, one per primitive.
-/

/-! ## SHA-256 (crypto/sha256 as used by internal/security/hash.go) -/

def w32 : Nat := 4294967296

def add32 (a b : Nat) : Nat := (a + b) % w32

def rotr32 (n x : Nat) : Nat := ((x >>> n) ||| (x <<< (32 - n))) % w32

def ch32 (x y z : Nat) : Nat := (x &&& y) ^^^ ((x ^^^ 4294967295) &&& z)

def maj32 (x y z : Nat) : Nat := ((x &&& y) ^^^ (x &&& z)) ^^^ (y &&& z)

def bsig0 (x : Nat) : Nat := (rotr32 2 x ^^^ rotr32 13 x) ^^^ rotr32 22 x

def bsig1 (x : Nat) : Nat := (rotr32 6 x ^^^ rotr32 11 x) ^^^ rotr32 25 x

def ssig0 (x : Nat) : Nat := (rotr32 7 x ^^^ rotr32 18 x) ^^^ (x >>> 3)

def ssig1 (x : Nat) : Nat := (rotr32 17 x ^^^ rotr32 19 x) ^^^ (x >>> 10)

def sha256K : List Nat :=
  [1116352408, 1899447441, 3049323471, 3921009573, 961987163,
   1508970993, 2453635748, 2870763221, 3624381080, 310598401,
   607225278, 1426881987, 1925078388, 2162078206, 2614888103,
   3248222580, 3835390401, 4022224774, 264347078, 604807628,
   770255983, 1249150122, 1555081692, 1996064986, 2554220882,
   2821834349, 2952996808, 3210313671, 3336571891, 3584528711,
   113926993, 338241895, 666307205, 773529912, 1294757372,
   1396182291, 1695183700, 1986661051, 2177026350, 2456956037,
   2730485921, 2820302411, 3259730800, 3345764771, 3516065817,
   3600352804, 4094571909, 275423344, 430227734, 506948616,
   659060556, 883997877, 958139571, 1322822218, 1537002063,
   1747873779, 1955562222, 2024104815, 2227730452, 2361852424,
   2428436474, 2756734187, 3204031479, 3329325298]

def sha256H0 : List Nat :=
  [1779033703, 3144134277, 1013904242,
   2773480762, 1359893119, 2600822924,
   528734635, 1541459225]

def toBytesBE (n x : Nat) : List Nat :=
  (List.range n).map (fun i => (x >>> (8 * (n - 1 - i))) &&& 255)

def padMessage (msg : List Nat) : List Nat :=
  msg ++ [0x80] ++ List.replicate ((119 - msg.length % 64) % 64) 0
      ++ toBytesBE 8 (8 * msg.length)

def bytesToWords : List Nat → List Nat
  | a :: b :: c :: d :: rest =>
      ((((a <<< 8) ||| b) <<< 8 ||| c) <<< 8 ||| d) :: bytesToWords rest
  | _ => []

def sha256Blocks (msg : List Nat) : List (List Nat) :=
  let padded := padMessage msg
  (List.range (padded.length / 64)).map (fun i => (padded.drop (64 * i)).take 64)

def extendSchedule (w : List Nat) : List Nat :=
  (List.range 48).foldl
    (fun acc _ =>
      let n := acc.length
      acc ++ [add32 (add32 (ssig1 (acc.getD (n - 2) 0)) (acc.getD (n - 7) 0))
                    (add32 (ssig0 (acc.getD (n - 15) 0)) (acc.getD (n - 16) 0))])
    w

def compressBlock (h : List Nat) (block : List Nat) : List Nat :=
  let ws := extendSchedule (bytesToWords block)
  let st := (List.range 64).foldl
    (fun st i =>
      match st with
      | (a, b, c, d, e, f, g, hh) =>
        let t1 := add32 hh (add32 (bsig1 e)
                    (add32 (ch32 e f g) (add32 (sha256K.getD i 0) (ws.getD i 0))))
        let t2 := add32 (bsig0 a) (maj32 a b c)
        (add32 t1 t2, a, b, c, add32 d t1, e, f, g))
    (h.getD 0 0, h.getD 1 0, h.getD 2 0, h.getD 3 0,
     h.getD 4 0, h.getD 5 0, h.getD 6 0, h.getD 7 0)
  match st with
  | (a, b, c, d, e, f, g, hh) =>
    [add32 (h.getD 0 0) a, add32 (h.getD 1 0) b, add32 (h.getD 2 0) c,
     add32 (h.getD 3 0) d, add32 (h.getD 4 0) e, add32 (h.getD 5 0) f,
     add32 (h.getD 6 0) g, add32 (h.getD 7 0) hh]

def sha256 (msg : List Nat) : List Nat :=
  ((sha256Blocks msg).foldl compressBlock sha256H0).foldr
    (fun w acc => toBytesBE 4 w ++ acc) []

def hexDigits : List Char :=
  "0123456789abcdef".data

def byteToHex (b : Nat) : List Char :=
  [hexDigits.getD (b / 16) '0', hexDigits.getD (b % 16) '0']

def hexEncode (bs : List Nat) : String :=
  String.mk (bs.foldr (fun b acc => byteToHex b ++ acc) [])

def utf8Bytes (c : Char) : List Nat :=
  let n := c.toNat
  if n < 0x80 then [n]
  else if n < 0x800 then
    [0xC0 ||| (n >>> 6), 0x80 ||| (n &&& 0x3F)]
  else if n < 0x10000 then
    [0xE0 ||| (n >>> 12), 0x80 ||| ((n >>> 6) &&& 0x3F), 0x80 ||| (n &&& 0x3F)]
  else
    [0xF0 ||| (n >>> 18), 0x80 ||| ((n >>> 12) &&& 0x3F),
     0x80 ||| ((n >>> 6) &&& 0x3F), 0x80 ||| (n &&& 0x3F)]

def strBytes (s : String) : List Nat :=
  (s.data.map utf8Bytes).flatten

/-- security/hash.go `HashUsername`: SHA-256 of the raw username bytes,
hex-encoded.  (The input is hashed as-is; no lowercasing happens despite the
comment in the source.) -/
def HashUsername (username : String) : String :=
  hexEncode (sha256 (strBytes username))

/-- security/hash.go `HashToken`: SHA-256 of the token string, hex-encoded. -/
def HashToken (token : String) : String :=
  hexEncode (sha256 (strBytes token))

/-! ## Error model (internal/errors/errors.go) -/

/-- internal/errors `AppError`: code, user-facing message, optional wrapped
underlying error (never exposed to users), HTTP status. -/
structure AppError where
  code : String
  message : String
  err : Option String
  status : Nat
deriving DecidableEq, Repr

def ErrCodeUnauthenticated : String := "UNAUTHENTICATED"

def ErrCodeNotFound : String := "NOT_FOUND"

def ErrCodeConflict : String := "CONFLICT"

def ErrCodeInternal : String := "INTERNAL"

def NewUnauthenticatedError (msg : String) : AppError :=
  AppError.mk ErrCodeUnauthenticated msg none 401

def NewNotFoundError (resource : String) : AppError :=
  AppError.mk ErrCodeNotFound (resource ++ " not found") none 404

def NewConflictError (msg : String) : AppError :=
  AppError.mk ErrCodeConflict msg none 409

def NewInternalError (msg : String) (e : Option String) : AppError :=
  AppError.mk ErrCodeInternal msg e 500

/-! ## Token domain model (internal/domain, Token part of contact.go's package) -/

/-- domain `Token`.  `tokenID` stands for the UUID (injected, only used as the
key of last-used updates); times are integer instants. -/
structure Token where
  tokenID : Nat
  userID : String
  tokenHash : String
  createdAt : Int
  expiresAt : Int
  lastUsed : Int
deriving DecidableEq, Repr

/-- domain `Token.IsExpired`: `time.Now().After(t.ExpiresAt)`, i.e. strictly
after the expiry instant. -/
def Token.isExpired (t : Token) (now : Int) : Bool :=
  decide (t.expiresAt < now)

/-- domain `NewToken`: fresh UUID (injected), createdAt = lastUsed = now. -/
def NewToken (tokenID : Nat) (userID tokenHash : String) (now expiresAt : Int) : Token :=
  Token.mk tokenID userID tokenHash now expiresAt now

/-- The tokens table: rows of the `tokens` relation (token_hash is unique by
schema constraint; `Create` surfaces its violation as a conflict). -/
abbrev Store := List Token

/-! ## TokenRepository (internal/repository/token_repo.go)

Each primitive takes a boolean fault flag injecting an infrastructure failure
of the underlying query (the `err != nil ∧ err ≠ pgx.ErrNoRows` branches);
`false` is the healthy database. -/

/-- token_repo.go `Create`: INSERT; unique-constraint violation on token_hash
is a Conflict, other failures Internal. -/
def Create (cFail : Bool) (st : Store) (token : Token) : Except AppError Store :=
  if cFail then .error (NewInternalError "Failed to create token" (some "db failure"))
  else if st.any (fun t => t.tokenHash == token.tokenHash) then
    .error (NewConflictError "Token hash already exists")
  else .ok (token :: st)

/-- token_repo.go `GetByTokenHash`: SELECT ... WHERE token_hash = $1;
`pgx.ErrNoRows` becomes NotFound, any other scan failure Internal. -/
def GetByTokenHash (gFail : Bool) (st : Store) (tokenHash : String) : Except AppError Token :=
  if gFail then .error (NewInternalError "Failed to get token" (some "db failure"))
  else
    match st.find? (fun t => t.tokenHash == tokenHash) with
    | some t => .ok t
    | none => .error (NewNotFoundError "Token")

/-- token_repo.go `UpdateLastUsed`: UPDATE ... SET last_used = now WHERE
token_id = $2. -/
def UpdateLastUsed (uFail : Bool) (st : Store) (tokenID : Nat) (now : Int) :
    Except AppError Unit × Store :=
  if uFail then (.error (NewInternalError "Failed to update token" (some "db failure")), st)
  else
    (.ok (),
     st.map (fun t =>
       if t.tokenID == tokenID then
         Token.mk t.tokenID t.userID t.tokenHash t.createdAt t.expiresAt now
       else t))

/-- token_repo.go `Delete`: DELETE ... WHERE token_hash = $1; zero rows
affected is NotFound. -/
def Delete (dFail : Bool) (st : Store) (tokenHash : String) :
    Except AppError Unit × Store :=
  if dFail then (.error (NewInternalError "Failed to delete token" (some "db failure")), st)
  else
    let st' := st.filter (fun t => !(t.tokenHash == tokenHash))
    (if st'.length = st.length then .error (NewNotFoundError "Token") else .ok (), st')

/-- token_repo.go `CreateForUser`: hash an injected fresh random secret, build
the row via `NewToken` with expiresAt = now + expiryDuration, store it, and
hand the raw secret back. -/
def CreateForUser (cFail : Bool) (st : Store) (now : Int) (userID : String)
    (expiryDuration : Int) (secret : String) (tokenID : Nat) :
    Except AppError String × Store :=
  let tokenHash := HashToken secret
  let token := NewToken tokenID userID tokenHash now (now + expiryDuration)
  match Create cFail st token with
  | .error e => (.error e, st)
  | .ok st' => (.ok secret, st')

/-- token_repo.go `ValidateToken`: look up by hash (any lookup error is
collapsed to Unauthenticated), delete the row if expired (best-effort),
otherwise best-effort bump last_used and return the user id. -/
def ValidateToken (gFail dFail uFail : Bool) (st : Store) (now : Int)
    (tokenStr : String) : Except AppError String × Store :=
  let tokenHash := HashToken tokenStr
  match GetByTokenHash gFail st tokenHash with
  | .error _ => (.error (NewUnauthenticatedError "Invalid or expired token"), st)
  | .ok token =>
    if token.isExpired now then
      (.error (NewUnauthenticatedError "Token expired"), (Delete dFail st tokenHash).snd)
    else
      (.ok token.userID, (UpdateLastUsed uFail st token.tokenID now).snd)

/-! ## AuthService (internal/service/auth_service.go) -/

/-- auth_service.go `RefreshToken`: validate the old secret, best-effort delete
of the old row (failure only logged), then issue a new token with the
configured TTL for the resolved user. -/
def RefreshToken (gFail dFail uFail cFail : Bool) (st : Store) (now : Int)
    (tokenStr : String) (tokenExpiry : Int) (newSecret : String) (newTokenID : Nat) :
    Except AppError String × Store :=
  match ValidateToken gFail dFail uFail st now tokenStr with
  | (.error e, st1) => (.error e, st1)
  | (.ok userID, st1) =>
    let oldTokenHash := HashToken tokenStr
    let st2 := (Delete dFail st1 oldTokenHash).snd
    match CreateForUser cFail st2 now userID tokenExpiry newSecret newTokenID with
    | (.error e, st3) => (.error (NewInternalError "Failed to create token" (some e.message)), st3)
    | (.ok newToken, st3) => (.ok newToken, st3)

/-- auth_service.go `Logout`: delete by hash; a NotFound from `Delete` is
swallowed (idempotent logout), any other error propagates. -/
def Logout (dFail : Bool) (st : Store) (tokenStr : String) :
    Except AppError Unit × Store :=
  let tokenHash := HashToken tokenStr
  match Delete dFail st tokenHash with
  | (.error e, st') =>
    if e.code = ErrCodeNotFound then (.ok (), st') else (.error e, st')
  | (.ok _, st') => (.ok (), st')

/-! ## RateLimiter (internal/api/middleware/ratelimit.go)

The per-key state is the slice `rl.requests[ip] : []time.Time`, modelled as a
`List Int`.  `Limit()`'s body for one request on one key is `limitStep`; a
sequence of requests on the same key is `admittedTimes`. -/

/-- The per-request prune in `Limit()`: keep exactly the timestamps `t` with
`now.Sub(t) < rl.window`. -/
def pruneWindow (window now : Int) (ts : List Int) : List Int :=
  ts.filter (fun t => decide (now - t < window))

/-- One pass of `Limit()` for a single key: prune, then either reject (the
stored slice is left as it was; the pruned copy is discarded) or append `now`
to the pruned slice and store that.  The Bool is `true` iff the request is
admitted. -/
def limitStep (limit : Nat) (window : Int) (ts : List Int) (now : Int) :
    Bool × List Int :=
  let validTimes := pruneWindow window now ts
  if limit ≤ validTimes.length then (false, ts)
  else (true, validTimes ++ [now])

/-- Run `Limit()` over a sequence of request instants for one key, returning
the instants of the admitted requests (with multiplicity, in order). -/
def admittedTimes (limit : Nat) (window : Int) : List Int → List Int → List Int
  | _, [] => []
  | ts, r :: rest =>
    match limitStep limit window ts r with
    | (true, ts') => r :: admittedTimes limit window ts' rest
    | (false, ts') => admittedTimes limit window ts' rest

/-- Membership test for the rolling window `(T - window, T]`. -/
def winP (window T a : Int) : Bool :=
  decide (T - a < window) && decide (a ≤ T)

/-- Number of instants of `A` lying in the rolling window `(T - window, T]`. -/
def cntWin (window T : Int) (A : List Int) : Nat :=
  A.countP (winP window T)

/-! ## Bearer-credential extraction
(internal/api/middleware/auth.go and internal/api/handlers/auth.go)

Go strings are modelled as `List Char`; the prefixes involved are ASCII, so
Go's byte indexing agrees with character indexing whenever the comparisons
succeed. -/

/-- strings.ToLower (Unicode simple lowercasing; ASCII suffices here). -/
def lowerStr (l : List Char) : List Char :=
  l.map Char.toLower

/-- strings.HasPrefix. -/
def hasPrefixStr (l p : List Char) : Bool :=
  decide (l.take p.length = p)

/-- middleware/auth.go `Authenticate`, the extraction step: strip a
case-insensitive "Bearer " prefix, else use the header verbatim. -/
def extractTokenMiddleware (authHeader : List Char) : List Char :=
  if hasPrefixStr (lowerStr authHeader) "bearer ".data then authHeader.drop 7
  else authHeader

/-- handlers/auth.go `RefreshToken`/`Logout`, the extraction step: strip only
an exact "Bearer " prefix, and only when the header is strictly longer than
the prefix. -/
def extractTokenHandler (authHeader : List Char) : List Char :=
  if 7 < authHeader.length ∧ authHeader.take 7 = "Bearer ".data then authHeader.drop 7
  else authHeader

/-- Outcome of the authentication middleware for one request. -/
inductive AuthOutcome where
  | missingHeader
  | invalidToken
  | authenticated (userID : String)
deriving DecidableEq, Repr

/-- middleware/auth.go `Authenticate`: absent header is 401 immediately; only
otherwise is the token extracted and handed to `AuthService.ValidateToken`
(abstracted as `validate`). -/
def authenticateMiddleware (validate : List Char → Except AppError String)
    (authHeader : List Char) : AuthOutcome :=
  if authHeader = [] then .missingHeader
  else
    match validate (extractTokenMiddleware authHeader) with
    | .error _ => .invalidToken
    | .ok userID => .authenticated userID

/-- handlers/auth.go `RefreshToken`/`Logout` header step: absent header is 401
immediately; otherwise the extracted credential is passed on. -/
def handlerHeaderToken (authHeader : List Char) : Option (List Char) :=
  if authHeader = [] then none
  else some (extractTokenHandler authHeader)

deriving instance DecidableEq for Except

/-- Claim C1: for every subject `s` and TTL `t > 0`, issuing a token for `s`
with TTL `t` (`CreateForUser`) and immediately validating the returned secret
(`ValidateToken`) succeeds and returns `s`. -/
theorem create_then_validate (st : Store) (s secret ret : String)
    (ttl now : Int) (tid : Nat) (st' : Store)
    (httl : 0 < ttl)
    (hcreate : CreateForUser false st now s ttl secret tid = (.ok ret, st')) :
    ret = secret ∧ (ValidateToken false false false st' now ret).fst = .ok s := by
  cases hany : (st.any fun t => t.tokenHash == HashToken secret) with
  | true => simp [CreateForUser, Create, NewToken, hany] at hcreate
  | false =>
    simp only [CreateForUser, Create, NewToken, hany, Bool.false_eq_true, if_false,
      Prod.mk.injEq, Except.ok.injEq] at hcreate
    obtain ⟨rfl, rfl⟩ := hcreate
    refine ⟨rfl, ?_⟩
    simp only [ValidateToken, GetByTokenHash, Bool.false_eq_true, if_false,
      List.find?_cons, beq_self_eq_true, Token.isExpired]
    simp only [decide_eq_true_eq]
    rw [if_neg (by omega)]

set_option maxRecDepth 100000 in
/-- Witness for C1 at a concrete store, subject, TTL and secret. -/
theorem create_then_validate_witness :
    "s3" = "s3" ∧ (ValidateToken false false false
      (CreateForUser false [] 0 "u1" 24 "s3" 7).snd 0 "s3").fst = .ok "u1" :=
  create_then_validate [] "u1" "s3" "s3" 24 0 7
    (CreateForUser false [] 0 "u1" 24 "s3" 7).snd (by decide) rfl

/-- Claim C3: for every token in the store whose expiry has passed,
`ValidateToken` on its secret returns Unauthenticated and removes the row, so a
subsequent lookup by that token's hash finds nothing. -/
theorem validate_expired_deletes_row (st : Store) (secret : String) (now : Int)
    (tok : Token)
    (hfound : GetByTokenHash false st (HashToken secret) = .ok tok)
    (hexp : tok.expiresAt < now) :
    (ValidateToken false false false st now secret).fst
        = .error (NewUnauthenticatedError "Token expired") ∧
    GetByTokenHash false (ValidateToken false false false st now secret).snd
        (HashToken secret) = .error (NewNotFoundError "Token") := by
  have hval : ValidateToken false false false st now secret
      = (.error (NewUnauthenticatedError "Token expired"),
         st.filter (fun t => !(t.tokenHash == HashToken secret))) := by
    unfold ValidateToken
    dsimp only
    rw [hfound]
    simp only [Token.isExpired, decide_eq_true_eq]
    rw [if_pos hexp]
    rfl
  have hnone : (st.filter (fun t => !(t.tokenHash == HashToken secret))).find?
      (fun t => t.tokenHash == HashToken secret) = none := by
    rw [List.find?_eq_none]
    intro x hx
    have hmem := (List.mem_filter.mp hx).2
    simp only [Bool.not_eq_true'] at hmem
    simp [hmem]
  rw [hval]
  refine ⟨rfl, ?_⟩
  unfold GetByTokenHash
  simp only [Bool.false_eq_true, if_false]
  rw [hnone]

set_option maxRecDepth 100000 in
/-- Witness for C3: a token with `expiresAt = now - 1` validated at `now`. -/
theorem validate_expired_deletes_row_witness :
    ((ValidateToken false false false [Token.mk 3 "u9" (HashToken "tt") (-10) (-1) (-10)] 0 "tt").fst
        = .error (NewUnauthenticatedError "Token expired") ∧
     GetByTokenHash false
        (ValidateToken false false false [Token.mk 3 "u9" (HashToken "tt") (-10) (-1) (-10)] 0 "tt").snd
        (HashToken "tt") = .error (NewNotFoundError "Token")) :=
  validate_expired_deletes_row [Token.mk 3 "u9" (HashToken "tt") (-10) (-1) (-10)] "tt" 0
    (Token.mk 3 "u9" (HashToken "tt") (-10) (-1) (-10)) (by decide) (by decide)

set_option maxRecDepth 100000 in
/-- Counterexample to C4 as stated: at `now = expiresAt` exactly the token
still validates to its subject, because `Token.IsExpired` uses a strict
`After` comparison; the claim says Validate must return Unauthenticated. -/
theorem validate_at_expiry_cex :
    (Token.mk 0 "u" (HashToken "t") 0 5 0).expiresAt = 5 ∧
    (ValidateToken false false false [Token.mk 0 "u" (HashToken "t") 0 5 0] 5 "t").fst
      = .ok "u" := by
  refine ⟨rfl, ?_⟩
  decide

/-- Claim C4 (amended): a stored token validates to its subject if and only
if the hash lookup finds it and `now ≤ expiresAt` (not `now < expiresAt`); in
particular at `now = expiresAt` exactly the token is still live.  When no such
token exists the outcome is an Unauthenticated error. -/
theorem validate_live_iff (st : Store) (now : Int) (secret : String) :
    (∀ uid, (ValidateToken false false false st now secret).fst = .ok uid ↔
      ∃ tok, GetByTokenHash false st (HashToken secret) = .ok tok ∧
        now ≤ tok.expiresAt ∧ uid = tok.userID) ∧
    (¬ (∃ tok, GetByTokenHash false st (HashToken secret) = .ok tok ∧ now ≤ tok.expiresAt) →
      ∃ e, (ValidateToken false false false st now secret).fst = .error e ∧
        e.code = ErrCodeUnauthenticated) := by
  unfold ValidateToken
  dsimp only
  cases hg : GetByTokenHash false st (HashToken secret) with
  | error e =>
    constructor
    · intro uid
      constructor
      · intro h; simp at h
      · rintro ⟨tok, htok, -⟩
        exact absurd htok (by simp)
    · intro h
      exact ⟨NewUnauthenticatedError "Invalid or expired token", rfl, rfl⟩
  | ok tok =>
    dsimp only
    constructor
    · intro uid
      by_cases hx : tok.isExpired now = true
      · rw [if_pos hx]
        simp only [Token.isExpired, decide_eq_true_eq] at hx
        constructor
        · intro h; simp at h
        · rintro ⟨tok', htok', hle, -⟩
          rw [Except.ok.injEq] at htok'
          subst htok'
          omega
      · rw [if_neg hx]
        simp only [Token.isExpired, decide_eq_true_eq, not_lt] at hx
        constructor
        · intro h
          rw [Except.ok.injEq] at h
          exact ⟨tok, rfl, hx, h.symm⟩
        · rintro ⟨tok', htok', -, huid⟩
          rw [Except.ok.injEq] at htok'
          subst htok'
          rw [huid]
    · intro hno
      by_cases hx : tok.isExpired now = true
      · rw [if_pos hx]
        exact ⟨NewUnauthenticatedError "Token expired", rfl, rfl⟩
      · exfalso
        simp only [Token.isExpired, decide_eq_true_eq, not_lt] at hx
        exact hno ⟨tok, rfl, hx⟩

set_option maxRecDepth 100000 in
/-- Witness for C4 (amended): a live token at `now < expiresAt` validates. -/
theorem validate_live_iff_witness :
    (ValidateToken false false false [Token.mk 0 "u" (HashToken "t") 0 5 0] 3 "t").fst
      = .ok "u" :=
  ((validate_live_iff [Token.mk 0 "u" (HashToken "t") 0 5 0] 3 "t").1 "u").mpr
    ⟨Token.mk 0 "u" (HashToken "t") 0 5 0, by decide, by decide, rfl⟩

/-- Claim C7: `Logout` is idempotent: it succeeds whether or not a row for the
secret exists, calling it twice in a row succeeds both times, and the second
call leaves the store unchanged. -/
theorem logout_idempotent (st : Store) (secret : String) :
    (Logout false st secret).fst = .ok () ∧
    (Logout false (Logout false st secret).snd secret).fst = .ok () ∧
    (Logout false (Logout false st secret).snd secret).snd = (Logout false st secret).snd := by
  have hlog : ∀ l : Store, Logout false l secret
      = (.ok (), l.filter (fun t => !(t.tokenHash == HashToken secret))) := by
    intro l
    unfold Logout Delete
    dsimp only
    simp only [Bool.false_eq_true, if_false]
    by_cases hc : (l.filter (fun t => !(t.tokenHash == HashToken secret))).length = l.length
    · rw [if_pos hc]
      simp [NewNotFoundError, ErrCodeNotFound]
    · rw [if_neg hc]
  have hidem : (st.filter (fun t => !(t.tokenHash == HashToken secret))).filter
        (fun t => !(t.tokenHash == HashToken secret))
      = st.filter (fun t => !(t.tokenHash == HashToken secret)) := by
    rw [List.filter_filter]
    exact List.filter_congr (fun x _ => Bool.and_self _)
  rw [hlog st, hlog]
  exact ⟨rfl, rfl, by simp only [hidem]⟩

/-- Counterexample to C8 as stated: an infrastructure failure of the store
lookup inside `ValidateToken` is surfaced as Unauthenticated, not as the
Internal error the claim requires. -/
theorem validate_infra_error_cex :
    (ValidateToken true false false [] 0 "x").fst
        = .error (NewUnauthenticatedError "Invalid or expired token") ∧
    (NewUnauthenticatedError "Invalid or expired token").code ≠ ErrCodeInternal :=
  ⟨rfl, by decide⟩

/-- Claim C8 (amended): when the store lookup inside `ValidateToken` fails
with an infrastructure error, the caller sees the generic Unauthenticated
error with a fixed message and no underlying cause attached (the claim's
`Internal` outcome is what `ValidateToken` never returns here). -/
theorem validate_infra_error_unauthenticated (st : Store) (now : Int) (secret : String)
    (dFail uFail : Bool) :
    (ValidateToken true dFail uFail st now secret).fst
      = .error (NewUnauthenticatedError "Invalid or expired token") ∧
    (NewUnauthenticatedError "Invalid or expired token").code = ErrCodeUnauthenticated ∧
    (NewUnauthenticatedError "Invalid or expired token").err = none :=
  ⟨rfl, rfl, rfl⟩

set_option maxRecDepth 1000000 in
/-- Claim C10: `HashUsername` is deterministic, yet case-sensitive: "Alice"
and "alice" differ only in letter case (lowercasing one yields the other) and
receive different user ids, because the input is hashed without the
lowercasing the source comment describes. -/
theorem hashUsername_deterministic_case_sensitive :
    (∀ u : String, HashUsername u = HashUsername u) ∧
    lowerStr "Alice".data = "alice".data ∧
    HashUsername "Alice" ≠ HashUsername "alice" :=
  ⟨fun _ => rfl, by decide, by decide⟩

/-- Claim C2 (amended): refreshing a live secret yields a new secret that
validates to the same subject, and the old secret stops validating — provided
the best-effort deletion of the old row succeeded (and the fresh secret's hash
is genuinely fresh).  When the deletion fails the old row survives, so the old
secret keeps validating (see the counterexample). -/
theorem refresh_rotates_secret (st : Store) (now tokenExpiry : Int)
    (oldSecret newSecret s : String) (nid : Nat)
    (hval : (ValidateToken false false false st now oldSecret).fst = .ok s)
    (httl : 0 < tokenExpiry)
    (hnewhash : HashToken newSecret ≠ HashToken oldSecret)
    (hfresh : ∀ tok ∈ st, tok.tokenHash ≠ HashToken newSecret) :
    ∃ st3, RefreshToken false false false false st now oldSecret tokenExpiry newSecret nid
        = (.ok newSecret, st3) ∧
      (ValidateToken false false false st3 now newSecret).fst = .ok s ∧
      (ValidateToken false false false st3 now oldSecret).fst
        = .error (NewUnauthenticatedError "Invalid or expired token") := by
  cases hg : GetByTokenHash false st (HashToken oldSecret) with
  | error e =>
    unfold ValidateToken at hval
    dsimp only at hval
    rw [hg] at hval
    simp at hval
  | ok tok0 =>
    by_cases hx : tok0.isExpired now = true
    · unfold ValidateToken at hval
      dsimp only at hval
      rw [hg] at hval
      dsimp only at hval
      rw [if_pos hx] at hval
      simp at hval
    · have hvfull : ValidateToken false false false st now oldSecret
          = (.ok tok0.userID, (UpdateLastUsed false st tok0.tokenID now).snd) := by
        unfold ValidateToken
        dsimp only
        rw [hg]
        dsimp only
        rw [if_neg hx]
      have huid : tok0.userID = s := by
        rw [hvfull] at hval
        exact Except.ok.inj hval
      have hupd : (UpdateLastUsed false st tok0.tokenID now).snd
          = st.map (fun t => if t.tokenID == tok0.tokenID then
              Token.mk t.tokenID t.userID t.tokenHash t.createdAt t.expiresAt now else t) := rfl
      have hhashmap : ∀ x ∈ (UpdateLastUsed false st tok0.tokenID now).snd,
          ∃ t ∈ st, x.tokenHash = t.tokenHash := by
        rw [hupd]
        intro x hx'
        obtain ⟨t0, ht0, rfl⟩ := List.mem_map.mp hx'
        refine ⟨t0, ht0, ?_⟩
        by_cases hid : (t0.tokenID == tok0.tokenID) = true
        · simp [hid]
        · simp [hid]
      have hdel : (Delete false (UpdateLastUsed false st tok0.tokenID now).snd
            (HashToken oldSecret)).snd
          = (UpdateLastUsed false st tok0.tokenID now).snd.filter
              (fun t => !(t.tokenHash == HashToken oldSecret)) := rfl
      have hany2 : ((UpdateLastUsed false st tok0.tokenID now).snd.filter
            (fun t => !(t.tokenHash == HashToken oldSecret))).any
            (fun t => t.tokenHash == HashToken newSecret) = false := by
        rw [List.any_eq_false]
        intro x hx2
        have hx1 := (List.mem_filter.mp hx2).1
        obtain ⟨t0, ht0, hh⟩ := hhashmap x hx1
        simp only [hh]
        simp [hfresh t0 ht0]
      refine ⟨NewToken nid tok0.userID (HashToken newSecret) now (now + tokenExpiry)
          :: (UpdateLastUsed false st tok0.tokenID now).snd.filter
              (fun t => !(t.tokenHash == HashToken oldSecret)), ?_, ?_, ?_⟩
      · unfold RefreshToken
        rw [hvfull]
        dsimp only
        unfold CreateForUser Create
        dsimp only [NewToken]
        rw [hdel]
        simp only [NewToken] at hany2 ⊢
        rw [hany2]
        simp only [Bool.false_eq_true, if_false]
      · unfold ValidateToken GetByTokenHash
        dsimp only [NewToken]
        rw [List.find?_cons]
        simp only [beq_self_eq_true, Bool.false_eq_true, if_false, Token.isExpired,
          decide_eq_true_eq]
        rw [if_neg (by omega : ¬ (now + tokenExpiry < now))]
        dsimp only
        rw [huid]
      · unfold ValidateToken GetByTokenHash
        dsimp only
        rw [List.find?_cons]
        have hne : ((NewToken nid tok0.userID (HashToken newSecret) now
            (now + tokenExpiry)).tokenHash == HashToken oldSecret) = false := by
          simp [NewToken, hnewhash]
        rw [hne]
        have hnone : ((UpdateLastUsed false st tok0.tokenID now).snd.filter
              (fun t => !(t.tokenHash == HashToken oldSecret))).find?
            (fun t => t.tokenHash == HashToken oldSecret) = none := by
          rw [List.find?_eq_none]
          intro x hx2
          have := (List.mem_filter.mp hx2).2
          simp only [Bool.not_eq_true'] at this
          simp [this]
        rw [hnone]
        rfl

set_option maxRecDepth 1000000 in
/-- Witness for C2 (amended) on a concrete one-token store. -/
theorem refresh_rotates_secret_witness :
    ∃ st3, RefreshToken false false false false
        [Token.mk 0 "u1" (HashToken "old") 0 100 0] 0 "old" 10 "new" 1
        = (.ok "new", st3) ∧
      (ValidateToken false false false st3 0 "new").fst = .ok "u1" ∧
      (ValidateToken false false false st3 0 "old").fst
        = .error (NewUnauthenticatedError "Invalid or expired token") :=
  refresh_rotates_secret [Token.mk 0 "u1" (HashToken "old") 0 100 0] 0 10 "old" "new" "u1" 1
    (by decide) (by decide) (by decide) (by decide)

set_option maxRecDepth 1000000 in
/-- Counterexample to C2 as stated: when the deletion of the old token row
fails, Refresh still returns a new secret but the old secret still validates
to the subject immediately afterwards, contradicting the claim's "including in
the case where the deletion of the old token row failed". -/
theorem refresh_delete_failure_cex :
    (RefreshToken false true false false
        [Token.mk 0 "u1" (HashToken "old") 0 100 0] 0 "old" 10 "new" 1).fst
      = .ok "new" ∧
    (ValidateToken false false false
        (RefreshToken false true false false
          [Token.mk 0 "u1" (HashToken "old") 0 100 0] 0 "old" 10 "new" 1).snd
        0 "old").fst = .ok "u1" := by
  exact ⟨by decide, by decide⟩

/-- Counterexample to C5 as stated: a timestamp lying exactly at
`now - window` is dropped by the prune (the kept set is `now - t < window`),
while the claim says it must still be counted. -/
theorem prune_boundary_cex :
    (10:Int) - 5 = 5 ∧ pruneWindow 5 10 [5] = [] :=
  ⟨rfl, by decide⟩

/-- Claim C5 (amended): before any admission decision the prune keeps exactly
the timestamps with `now - t < window` — the half-open window
`(now - window, now]` — dropping a timestamp exactly at `now - window`;
and the admission decision is taken on precisely the pruned count. -/
theorem prune_keeps_window (window now : Int) (ts : List Int) :
    (∀ t : Int, (pruneWindow window now ts).count t
        = if now - t < window then ts.count t else 0) ∧
    (∀ limit : Nat, (limitStep limit window ts now).fst
        = decide ((pruneWindow window now ts).length < limit)) := by
  constructor
  · intro t
    by_cases hp : now - t < window
    · rw [if_pos hp]
      exact List.count_filter (by simpa using hp)
    · rw [if_neg hp, List.count_eq_zero]
      intro hmem
      exact hp (by simpa using (List.mem_filter.mp hmem).2)
  · intro limit
    unfold limitStep
    by_cases hc : limit ≤ (pruneWindow window now ts).length
    · rw [if_pos hc]
      have : ¬ ((pruneWindow window now ts).length < limit) := by omega
      simp [this]
    · rw [if_neg hc]
      have : (pruneWindow window now ts).length < limit := by omega
      simp [this]

/-- Auxiliary invariant-carrying induction for the sliding-window bound: if the
in-window part of the already-admitted multiset `A` is a sub-permutation of the
stored slice `ts`, every element of `A` is at or before the clock lower bound
`b`, future requests are sorted and at or after `b`, and every rolling window
holds at most `limit` elements of `A`, then every rolling window also holds at
most `limit` elements of `A` together with the subsequently admitted ones. -/
theorem admitted_bound_aux (limit : Nat) (window : Int) (hw : 0 < window) :
    ∀ (reqs ts A : List Int) (b : Int),
      reqs.Pairwise (· ≤ ·) → (∀ r ∈ reqs, b ≤ r) → (∀ a ∈ A, a ≤ b) →
      List.Subperm (A.filter (fun a => decide (b - a < window))) ts →
      (∀ T, cntWin window T A ≤ limit) →
      ∀ T, cntWin window T (A ++ admittedTimes limit window ts reqs) ≤ limit := by
  intro reqs
  induction reqs with
  | nil =>
    intro ts A b _ _ _ _ hbound T
    simpa [admittedTimes] using hbound T
  | cons r rest ih =>
    intro ts A b hpw hge hAb hinv hbound T
    have hbr : b ≤ r := hge r (List.mem_cons_self r rest)
    have hrrest : ∀ x ∈ rest, r ≤ x := (List.pairwise_cons.mp hpw).1
    have hpw' := (List.pairwise_cons.mp hpw).2
    have hmono : List.Sublist (A.filter (fun a => decide (r - a < window)))
        (A.filter (fun a => decide (b - a < window))) :=
      List.monotone_filter_right A (fun a ha => by
        simp only [decide_eq_true_eq] at ha ⊢
        omega)
    have hsub : List.Subperm (A.filter (fun a => decide (r - a < window)))
        (pruneWindow window r ts) := by
      have h1 := (hinv.filter (fun a => decide (r - a < window)))
      rw [List.filter_filter] at h1
      have h2 : A.filter (fun a => decide (r - a < window) && decide (b - a < window))
          = A.filter (fun a => decide (r - a < window)) := by
        refine List.filter_congr (fun x hx => ?_)
        cases hra : decide (r - x < window) with
        | true =>
          have : decide (b - x < window) = true := by
            simp only [decide_eq_true_eq] at hra ⊢
            omega
          rw [this]
          rfl
        | false => rfl
      rw [h2] at h1
      exact h1
    by_cases hrej : limit ≤ (pruneWindow window r ts).length
    · have hstep : limitStep limit window ts r = (false, ts) := by
        unfold limitStep
        rw [if_pos hrej]
      have hadm : admittedTimes limit window ts (r :: rest)
          = admittedTimes limit window ts rest := by
        simp [admittedTimes, hstep]
      rw [hadm]
      exact ih ts A r hpw' hrrest (fun a ha => le_trans (hAb a ha) hbr)
        (hmono.subperm.trans hinv) hbound T
    · have hstep : limitStep limit window ts r = (true, pruneWindow window r ts ++ [r]) := by
        unfold limitStep
        rw [if_neg hrej]
      have hadm : admittedTimes limit window ts (r :: rest)
          = r :: admittedTimes limit window (pruneWindow window r ts ++ [r]) rest := by
        simp [admittedTimes, hstep]
      rw [hadm, List.append_cons]
      have hA'b : ∀ a ∈ A ++ [r], a ≤ r := by
        intro a ha
        rcases List.mem_append.mp ha with h | h
        · exact le_trans (hAb a h) hbr
        · simp only [List.mem_singleton] at h
          omega
      have hrr : decide (r - r < window) = true := by
        simp only [decide_eq_true_eq]
        omega
      have hinv' : List.Subperm ((A ++ [r]).filter (fun a => decide (r - a < window)))
          (pruneWindow window r ts ++ [r]) := by
        rw [List.filter_append]
        have hfr : [r].filter (fun a => decide (r - a < window)) = [r] := by
          rw [List.filter_cons]
          rw [if_pos hrr, List.filter_nil]
        rw [hfr]
        exact (List.subperm_append_right [r]).mpr hsub
      have hbound' : ∀ T', cntWin window T' (A ++ [r]) ≤ limit := by
        intro T'
        rw [cntWin, List.countP_append]
        by_cases hin : winP window T' r = true
        · have h1 : List.countP (winP window T') [r] = 1 := by
            rw [List.countP_singleton, if_pos hin]
          have hTr : ∀ x ∈ A, winP window T' x = true → winP window r x = true := by
            intro x hxA hxw
            have hxb := hAb x hxA
            simp only [winP, Bool.and_eq_true, decide_eq_true_eq] at hin hxw ⊢
            omega
          have h2 : A.countP (winP window T') ≤ A.countP (winP window r) :=
            List.countP_mono_left hTr
          have h3 : A.countP (winP window r)
              = A.countP (fun a => decide (r - a < window)) := by
            refine List.countP_congr (fun x hxA => ?_)
            have hxb := hAb x hxA
            simp only [winP, Bool.and_eq_true, decide_eq_true_eq]
            constructor
            · intro hx
              exact hx.1
            · intro hx
              exact ⟨hx, by omega⟩
          have h4 : A.countP (fun a => decide (r - a < window))
              = (A.filter (fun a => decide (r - a < window))).length :=
            List.countP_eq_length_filter _ A
          have h5 : (A.filter (fun a => decide (r - a < window))).length
              ≤ (pruneWindow window r ts).length := hsub.length_le
          have hlt : (pruneWindow window r ts).length < limit := by omega
          have := hbound T'
          rw [cntWin] at this
          omega
        · have h1 : List.countP (winP window T') [r] = 0 := by
            rw [List.countP_singleton, if_neg hin]
          have := hbound T'
          rw [cntWin] at this
          omega
      exact ih (pruneWindow window r ts ++ [r]) (A ++ [r]) r hpw' hrrest hA'b hinv' hbound' T

/-- Claim C6: when the pruned in-window count has reached `limit` the request
is rejected and nothing is recorded (subsequent decisions are as if it had
never arrived); otherwise `now` is appended and the request admitted; and for
a monotone clock at most `limit` requests are ever admitted in any rolling
window `(T - window, T]` of one key. -/
theorem ratelimit_admission (limit : Nat) (window r T : Int) (ts rest reqs : List Int)
    (hw : 0 < window) (hsorted : reqs.Pairwise (· ≤ ·)) :
    (limit ≤ (pruneWindow window r ts).length →
      limitStep limit window ts r = (false, ts) ∧
      admittedTimes limit window ts (r :: rest) = admittedTimes limit window ts rest) ∧
    ((pruneWindow window r ts).length < limit →
      limitStep limit window ts r = (true, pruneWindow window r ts ++ [r])) ∧
    cntWin window T (admittedTimes limit window [] reqs) ≤ limit := by
  refine ⟨?_, ?_, ?_⟩
  · intro h
    have hstep : limitStep limit window ts r = (false, ts) := by
      unfold limitStep
      rw [if_pos h]
    exact ⟨hstep, by simp [admittedTimes, hstep]⟩
  · intro h
    unfold limitStep
    rw [if_neg (by omega)]
  · cases reqs with
    | nil => simp [admittedTimes, cntWin]
    | cons r0 rest' =>
      have h := admitted_bound_aux limit window hw (r0 :: rest') [] [] r0 hsorted
        (fun x hx => ?_) (fun a ha => absurd ha (List.not_mem_nil a))
        (by simp) (fun T' => by simp [cntWin]) T
      · simpa using h
      · rcases List.mem_cons.mp hx with h' | h'
        · omega
        · exact (List.pairwise_cons.mp hsorted).1 x h'

/-- Witness for C6 on a concrete burst of four simultaneous requests with
`limit = 3`. -/
theorem ratelimit_admission_witness :
    cntWin 10 5 (admittedTimes 3 10 [] [0, 0, 0, 0]) ≤ 3 :=
  (ratelimit_admission 3 10 5 5 [5, 5, 5] [] [0, 0, 0, 0] (by decide) (by decide)).2.2

/-- Counterexample to C9 as stated: the refresh/logout handlers strip only
the exact "Bearer " prefix, so a lowercase "bearer abc" header is passed
through verbatim there, while the auth middleware strips it
case-insensitively — the claim says all three endpoints are
case-insensitive. -/
theorem bearer_case_insensitive_cex :
    extractTokenMiddleware "bearer abc".data = "abc".data ∧
    extractTokenHandler "bearer abc".data = "bearer abc".data ∧
    "bearer abc".data ≠ "abc".data := by
  refine ⟨by decide, by decide, by decide⟩

/-- Claim C9 (amended): the auth middleware strips any case variant of
"Bearer "; the refresh/logout handlers strip only the exact "Bearer " prefix
(and only when followed by a nonempty remainder); a header without a bearer
prefix is used verbatim everywhere; and an absent header yields the
missing-header outcome immediately, independent of the validator. -/
theorem bearer_extraction (p s h : List Char)
    (v v' : List Char → Except AppError String)
    (hplower : lowerStr p = "bearer ".data)
    (hs : s ≠ [])
    (hnob : hasPrefixStr (lowerStr h) "bearer ".data = false) :
    extractTokenMiddleware (p ++ s) = s ∧
    extractTokenHandler ("Bearer ".data ++ s) = s ∧
    extractTokenHandler ("bearer ".data ++ s) = "bearer ".data ++ s ∧
    extractTokenMiddleware h = h ∧
    extractTokenHandler h = h ∧
    authenticateMiddleware v [] = .missingHeader ∧
    authenticateMiddleware v [] = authenticateMiddleware v' [] ∧
    handlerHeaderToken [] = none := by
  have hplen : p.length = 7 := by
    have := congrArg List.length hplower
    simpa [lowerStr] using this
  refine ⟨?_, ?_, ?_, ?_, ?_, rfl, rfl, rfl⟩
  · unfold extractTokenMiddleware
    have hpre : hasPrefixStr (lowerStr (p ++ s)) "bearer ".data = true := by
      unfold hasPrefixStr lowerStr
      rw [List.map_append]
      unfold lowerStr at hplower
      rw [decide_eq_true_eq]
      have h7 : ("bearer ".data).length = (p.map Char.toLower).length := by
        rw [hplower]
      rw [List.take_left' h7.symm, hplower]
    rw [if_pos hpre]
    rw [show (7 : Nat) = p.length from hplen.symm, List.drop_left]
  · unfold extractTokenHandler
    rw [if_pos ?_]
    · rw [show (7 : Nat) = ("Bearer ".data).length from rfl, List.drop_left]
    · constructor
      · have h7 : ("Bearer ".data).length = 7 := rfl
        have hpos := List.length_pos.mpr hs
        rw [List.length_append, h7]
        omega
      · exact List.take_left' (show ("Bearer ".data).length = 7 from rfl)
  · unfold extractTokenHandler
    rw [if_neg ?_]
    rintro ⟨-, htake⟩
    rw [List.take_left' (show ("bearer ".data).length = 7 from rfl)] at htake
    exact absurd htake (by decide)
  · unfold extractTokenMiddleware
    rw [if_neg ?_]
    rw [hnob]
    exact Bool.false_ne_true
  · unfold extractTokenHandler
    rw [if_neg ?_]
    rintro ⟨hlen, htake⟩
    unfold hasPrefixStr at hnob
    rw [decide_eq_false_iff_not] at hnob
    apply hnob
    have : lowerStr (h.take 7) = lowerStr "Bearer ".data := congrArg lowerStr htake
    unfold lowerStr at this ⊢
    rw [List.map_take] at this
    rw [show (("bearer ".data) : List Char).length = 7 from rfl, this]
    decide

/-- Witness for C9 (amended) on concrete headers. -/
theorem bearer_extraction_witness :
    extractTokenMiddleware ("BeArEr ".data ++ "tok".data) = "tok".data ∧
    extractTokenHandler ("Bearer ".data ++ "tok".data) = "tok".data ∧
    extractTokenHandler ("bearer ".data ++ "tok".data) = "bearer ".data ++ "tok".data ∧
    extractTokenMiddleware "raw".data = "raw".data ∧
    extractTokenHandler "raw".data = "raw".data ∧
    authenticateMiddleware (fun _ => .ok "a") [] = .missingHeader ∧
    authenticateMiddleware (fun _ => .ok "a") []
      = authenticateMiddleware (fun _ => .error (NewUnauthenticatedError "x")) [] ∧
    handlerHeaderToken [] = none :=
  bearer_extraction "BeArEr ".data "tok".data "raw".data
    (fun _ => .ok "a") (fun _ => .error (NewUnauthenticatedError "x"))
    (by decide) (by decide) (by decide)
